import Mathlib

/-!
Verification of the HeatSync hourly heating simulation engine
(`simulate` in the repository source, plus its price-generation step).

Numbers are modelled as rationals. Python's `round(x, n)` and
`np.round(x, n)` (round half to even at `n` decimal places) are modelled
by `roundDp`. The 24 base prices drawn by the seeded uniform generator
are modelled as an arbitrary function `base : Nat → Rat`; where a claim
depends on the range of the draws, the range `[0.15, 0.25)` documented
for `np.random.uniform(0.15, 0.25, 24)` appears as a hypothesis.
-/

/-- Round half to even to an integer, as Python and numpy round floats. -/
def roundHE (q : ℚ) : ℤ :=
  if q - Int.floor q < 1/2 then Int.floor q
  else if q - Int.floor q > 1/2 then Int.floor q + 1
  else if Even (Int.floor q) then Int.floor q else Int.floor q + 1

/-- Round to `n` decimal places, half to even: models `round(q, n)` / `np.round(q, n)`. -/
def roundDp (n : ℕ) (q : ℚ) : ℚ := (roundHE (q * 10 ^ n) : ℚ) / 10 ^ n

/-- Fixed device parameter `room_vol = 50` from the source. -/
def room_vol : ℚ := 50

/-- Fixed device parameter `power = 2` (kW) from the source. -/
def power : ℚ := 2

/-- Fixed device parameter `pcm_cap = 5` (kWh) from the source. -/
def pcm_cap : ℚ := 5

/-- Fixed device parameter `loss_coeff = 0.3` from the source. -/
def loss_coeff : ℚ := 3/10

/-- Fixed device parameter `dt = 1` (hour) from the source. -/
def dt : ℚ := 1

/-- Peak hours receiving the 0.15 surcharge: `for h in [7, 8, 17, 18, 19]`. -/
def peakHours : List ℕ := [7, 8, 17, 18, 19]

/-- The hourly price series: base draws plus the peak surcharge
`prices[h] += 0.15` at peak hours. -/
def priceSeries (base : ℕ → ℚ) (h : ℕ) : ℚ :=
  if h ∈ peakHours then base h + 3/20 else base h

/-- The generated 24-element price list. -/
def priceList (base : ℕ → ℚ) : List ℚ :=
  (List.range 24).map (priceSeries base)

/-- The quantities produced by one iteration of the hour loop:
the updated temperature and storage, and the `heat`, `grid_heat`, `use`
and cost increment of that hour. -/
structure HourOut where
  newTemp : ℚ
  newStor : ℚ
  heat : ℚ
  grid : ℚ
  use : ℚ
  costAdd : ℚ
deriving DecidableEq

/-- One iteration of the hour loop of `simulate`, at temperature `t`,
storage `s` and price `p`:
`loss = loss_coeff * room_vol * (t - outdoor_temp) / 1000`;
if `t < desired_temp` and `s > 0` then `use = min(power, s)`, `s -= use`,
`heat = use`, `grid_heat = 0`; if `t < desired_temp` otherwise then
`use = 0`, `grid_heat = power`, `cost += grid_heat * p * dt`,
`heat = grid_heat`; else `heat = use = grid_heat = 0`;
finally `new_t = t + (heat - loss) * 0.5`. -/
def hourStep (d o p t s : ℚ) : HourOut :=
  if t < d then
    if s > 0 then
      { newTemp := t + (min power s - loss_coeff * room_vol * (t - o) / 1000) * (1/2)
        newStor := s - min power s
        heat := min power s
        grid := 0
        use := min power s
        costAdd := 0 }
    else
      { newTemp := t + (power - loss_coeff * room_vol * (t - o) / 1000) * (1/2)
        newStor := s
        heat := power
        grid := power
        use := 0
        costAdd := power * p * dt }
  else
    { newTemp := t + (0 - loss_coeff * room_vol * (t - o) / 1000) * (1/2)
      newStor := s
      heat := 0
      grid := 0
      use := 0
      costAdd := 0 }

/-- The simulation state before hour `h`: `(temperature, storage, accumulated cost)`.
The loop starts from `temps = [outdoor_temp]`, `storage = [pcm_cap]`, `cost = 0`. -/
def simAux (d o : ℚ) (pr : ℕ → ℚ) : ℕ → ℚ × ℚ × ℚ
  | 0 => (o, pcm_cap, 0)
  | n + 1 =>
    ((hourStep d o (pr n) (simAux d o pr n).1 (simAux d o pr n).2.1).newTemp,
     (hourStep d o (pr n) (simAux d o pr n).1 (simAux d o pr n).2.1).newStor,
     (simAux d o pr n).2.2 + (hourStep d o (pr n) (simAux d o pr n).1 (simAux d o pr n).2.1).costAdd)

/-- Temperature at the start of hour `h` (the value `temps[-1]` read by hour `h`). -/
def tempAt (d o : ℚ) (pr : ℕ → ℚ) (h : ℕ) : ℚ := (simAux d o pr h).1

/-- Storage level at the start of hour `h`. -/
def storAt (d o : ℚ) (pr : ℕ → ℚ) (h : ℕ) : ℚ := (simAux d o pr h).2.1

/-- Grid cost accumulated before hour `h`. -/
def costAt (d o : ℚ) (pr : ℕ → ℚ) (h : ℕ) : ℚ := (simAux d o pr h).2.2

/-- The outputs of the iteration for hour `h`. -/
def stepAt (d o : ℚ) (pr : ℕ → ℚ) (h : ℕ) : HourOut :=
  hourStep d o (pr h) (tempAt d o pr h) (storAt d o pr h)

/-- `grid_heat` appended to the `grid` column at hour `h`. -/
def gridAt (d o : ℚ) (pr : ℕ → ℚ) (h : ℕ) : ℚ := (stepAt d o pr h).grid

/-- `use` appended to the `pcm_use` column at hour `h`. -/
def useAt (d o : ℚ) (pr : ℕ → ℚ) (h : ℕ) : ℚ := (stepAt d o pr h).use

/-- `heat` computed at hour `h`. -/
def heatAt (d o : ℚ) (pr : ℕ → ℚ) (h : ℕ) : ℚ := (stepAt d o pr h).heat

/-- One row of the result DataFrame. -/
structure HourlyRecord where
  hour : ℕ
  temperature : ℚ
  grid_heating_kw : ℚ
  pcm_use_kw : ℚ
  price : ℚ
deriving DecidableEq

/-- The row emitted for hour `h`: `np.round(temps[:-1], 2)` gives the
pre-update temperature rounded to 2 decimals, `np.round(prices, 3)` the
price rounded to 3 decimals; the heating columns are unrounded. -/
def recordAt (d o : ℚ) (pr : ℕ → ℚ) (h : ℕ) : HourlyRecord :=
  { hour := h
    temperature := roundDp 2 (tempAt d o pr h)
    grid_heating_kw := gridAt d o pr h
    pcm_use_kw := useAt d o pr h
    price := roundDp 3 (pr h) }

/-- The value returned by `simulate`: the DataFrame rows and the three
summary scalars. -/
structure SimulationResult where
  records : List HourlyRecord
  total_cost : ℚ
  co2_saved_kg : ℚ
  trees_equivalent : ℚ
deriving DecidableEq

/-- The whole engine, given the 24 base price draws:
runs the 24-hour loop and aggregates `total_cost = round(cost, 2)`,
`co2_saved = round(sum(pcm_use) * 0.233, 2)`,
`trees_equiv = round(co2_saved / 21, 2)`. -/
def simulate (base : ℕ → ℚ) (d o : ℚ) : SimulationResult :=
  let pr := priceSeries base
  let recs := (List.range 24).map (recordAt d o pr)
  let co2 := roundDp 2 ((recs.map (fun r => r.pcm_use_kw)).sum * (233/1000))
  { records := recs
    total_cost := roundDp 2 (costAt d o pr 24)
    co2_saved_kg := co2
    trees_equivalent := roundDp 2 (co2 / 21) }

/-- `np.random.seed(0)` replaces the global generator state with the
state seeded by 0, discarding the previous state. -/
def npRandomSeed (seedVal : ℕ) (_oldState : ℕ) : ℕ := seedVal

/-- An invocation of the engine in a process whose numpy global RNG is in
state `st`, where `g st' h` is the h-th uniform draw the generator
produces from state `st'`: `simulate` first calls `np.random.seed(0)`,
so the draws are taken from the state seeded by 0. -/
def engineRun (g : ℕ → ℕ → ℚ) (st : ℕ) (d o : ℚ) : SimulationResult :=
  simulate (g (npRandomSeed 0 st)) d o

/-- The price series produced by such an invocation. -/
def enginePrices (g : ℕ → ℕ → ℚ) (st : ℕ) : List ℚ :=
  priceList (g (npRandomSeed 0 st))

/-! ### Step and case lemmas -/

lemma simAux_zero (d o : ℚ) (pr : ℕ → ℚ) : simAux d o pr 0 = (o, 5, 0) := rfl

lemma simAux_succ (d o : ℚ) (pr : ℕ → ℚ) (h : ℕ) :
    simAux d o pr (h + 1) =
      ((stepAt d o pr h).newTemp, (stepAt d o pr h).newStor,
       costAt d o pr h + (stepAt d o pr h).costAdd) := rfl

lemma tempAt_succ (d o : ℚ) (pr : ℕ → ℚ) (h : ℕ) :
    tempAt d o pr (h + 1) = (stepAt d o pr h).newTemp := rfl

lemma storAt_succ (d o : ℚ) (pr : ℕ → ℚ) (h : ℕ) :
    storAt d o pr (h + 1) = (stepAt d o pr h).newStor := rfl

lemma costAt_succ (d o : ℚ) (pr : ℕ → ℚ) (h : ℕ) :
    costAt d o pr (h + 1) = costAt d o pr h + (stepAt d o pr h).costAdd := rfl

lemma hourStep_cold_pos {d t s : ℚ} (o p : ℚ) (hd : t < d) (hs : 0 < s) :
    hourStep d o p t s =
      { newTemp := t + (min 2 s - 3/10 * 50 * (t - o) / 1000) * (1/2)
        newStor := s - min 2 s
        heat := min 2 s
        grid := 0
        use := min 2 s
        costAdd := 0 } := by
  simp [hourStep, hd, hs, power, loss_coeff, room_vol]

lemma hourStep_cold_empty {d t s : ℚ} (o p : ℚ) (hd : t < d) (hs : ¬ s > 0) :
    hourStep d o p t s =
      { newTemp := t + (2 - 3/10 * 50 * (t - o) / 1000) * (1/2)
        newStor := s
        heat := 2
        grid := 2
        use := 0
        costAdd := 2 * p } := by
  simp [hourStep, hd, hs, power, loss_coeff, room_vol, dt]

lemma hourStep_warm {d t : ℚ} (o p s : ℚ) (hd : ¬ t < d) :
    hourStep d o p t s =
      { newTemp := t + (0 - 3/10 * 50 * (t - o) / 1000) * (1/2)
        newStor := s
        heat := 0
        grid := 0
        use := 0
        costAdd := 0 } := by
  simp [hourStep, hd, loss_coeff, room_vol]

/-! ### Storage invariants -/

lemma storAt_succ_cases (d o : ℚ) (pr : ℕ → ℚ) (h : ℕ) :
    storAt d o pr (h + 1) = storAt d o pr h ∨
      storAt d o pr (h + 1) = storAt d o pr h - min 2 (storAt d o pr h) := by
  rw [storAt_succ]
  unfold stepAt
  by_cases hd : tempAt d o pr h < d
  · by_cases hs : storAt d o pr h > 0
    · right; rw [hourStep_cold_pos o (pr h) hd hs]
    · left; rw [hourStep_cold_empty o (pr h) hd hs]
  · left; rw [hourStep_warm o (pr h) _ hd]

lemma storAt_nonneg (d o : ℚ) (pr : ℕ → ℚ) : ∀ h, 0 ≤ storAt d o pr h := by
  intro h
  induction h with
  | zero => norm_num [storAt, simAux, pcm_cap]
  | succ n ih =>
    rcases storAt_succ_cases d o pr n with h1 | h1
    · rw [h1]; exact ih
    · rw [h1]
      have hm : min 2 (storAt d o pr n) ≤ storAt d o pr n := min_le_right _ _
      linarith

lemma storAt_antitone (d o : ℚ) (pr : ℕ → ℚ) (h : ℕ) :
    storAt d o pr (h + 1) ≤ storAt d o pr h := by
  rcases storAt_succ_cases d o pr h with h1 | h1
  · rw [h1]
  · rw [h1]
    have h2 : (0:ℚ) ≤ min 2 (storAt d o pr h) :=
      le_min (by norm_num) (storAt_nonneg d o pr h)
    linarith

lemma storAt_le_cap (d o : ℚ) (pr : ℕ → ℚ) : ∀ h, storAt d o pr h ≤ 5 := by
  intro h
  induction h with
  | zero => norm_num [storAt, simAux, pcm_cap]
  | succ n ih => exact le_trans (storAt_antitone d o pr n) ih

/-! ### Temperature, cost and steady-state lemmas -/

lemma heatAt_nonneg (d o : ℚ) (pr : ℕ → ℚ) (h : ℕ) : 0 ≤ heatAt d o pr h := by
  unfold heatAt stepAt
  by_cases hd : tempAt d o pr h < d
  · by_cases hs : storAt d o pr h > 0
    · rw [hourStep_cold_pos o (pr h) hd hs]
      exact le_min (by norm_num) (le_of_lt hs)
    · rw [hourStep_cold_empty o (pr h) hd hs]; norm_num
  · rw [hourStep_warm o (pr h) _ hd]

lemma tempAt_newTemp (d o : ℚ) (pr : ℕ → ℚ) (h : ℕ) :
    tempAt d o pr (h + 1) =
      tempAt d o pr h +
        (heatAt d o pr h - 3/10 * 50 * (tempAt d o pr h - o) / 1000) * (1/2) := by
  rw [tempAt_succ]
  unfold heatAt stepAt
  by_cases hd : tempAt d o pr h < d
  · by_cases hs : storAt d o pr h > 0
    · rw [hourStep_cold_pos o (pr h) hd hs]
    · rw [hourStep_cold_empty o (pr h) hd hs]
  · rw [hourStep_warm o (pr h) _ hd]

lemma tempAt_ge_outdoor (d o : ℚ) (pr : ℕ → ℚ) : ∀ h, o ≤ tempAt d o pr h := by
  intro h
  induction h with
  | zero => simp [tempAt, simAux]
  | succ n ih =>
    rw [tempAt_newTemp]
    have hh := heatAt_nonneg d o pr n
    nlinarith [ih, hh]

lemma costAt_nonneg (d o : ℚ) (pr : ℕ → ℚ) (hpr : ∀ h, 0 ≤ pr h) :
    ∀ h, 0 ≤ costAt d o pr h := by
  intro h
  induction h with
  | zero => norm_num [costAt, simAux]
  | succ n ih =>
    rw [costAt_succ]
    have hc : 0 ≤ (stepAt d o pr n).costAdd := by
      unfold stepAt
      by_cases hd : tempAt d o pr n < d
      · by_cases hs : storAt d o pr n > 0
        · rw [hourStep_cold_pos o (pr n) hd hs]
        · rw [hourStep_cold_empty o (pr n) hd hs]
          have := hpr n; linarith
      · rw [hourStep_warm o (pr n) _ hd]
    linarith

lemma simAux_steady (d o : ℚ) (pr : ℕ → ℚ) (hdo : d ≤ o) :
    ∀ h, simAux d o pr h = (o, 5, 0) := by
  intro h
  induction h with
  | zero => rfl
  | succ n ih =>
    have ht : tempAt d o pr n = o := by rw [tempAt, ih]
    have hs : storAt d o pr n = 5 := by rw [storAt, ih]
    have hc : costAt d o pr n = 0 := by rw [costAt, ih]
    have hd : ¬ tempAt d o pr n < d := by rw [ht]; exact not_lt.mpr hdo
    rw [simAux_succ, hc]
    unfold stepAt
    rw [hourStep_warm o (pr n) _ hd, ht, hs]
    norm_num

/-! ### Rounding lemmas -/

lemma roundHE_nonneg (q : ℚ) (hq : 0 ≤ q) : 0 ≤ roundHE q := by
  unfold roundHE
  have h0 : (0:ℤ) ≤ Int.floor q := Int.floor_nonneg.mpr hq
  split_ifs <;> omega

lemma roundDp_nonneg (n : ℕ) (q : ℚ) (hq : 0 ≤ q) : 0 ≤ roundDp n q := by
  unfold roundDp
  have h1 : (0:ℚ) ≤ (roundHE (q * 10 ^ n) : ℚ) := by
    exact_mod_cast roundHE_nonneg _ (by positivity)
  positivity

lemma roundDp_zero (n : ℕ) : roundDp n 0 = 0 := by
  norm_num [roundDp, roundHE]

/-! ### Claim theorems -/

/-- C2: for every inputs, the storage level after every hour lies in
[0, 5]: it starts at 5, and each hour it either stays unchanged or
decreases by min(2, s), so it never goes negative and never exceeds the
capacity 5. -/
theorem storage_bounds_invariant (d o : ℚ) (pr : ℕ → ℚ) (h : ℕ) :
    (0 ≤ storAt d o pr h ∧ storAt d o pr h ≤ 5) ∧
    storAt d o pr 0 = 5 ∧
    (storAt d o pr (h + 1) = storAt d o pr h ∨
      storAt d o pr (h + 1) = storAt d o pr h - min 2 (storAt d o pr h)) :=
  ⟨⟨storAt_nonneg d o pr h, storAt_le_cap d o pr h⟩, rfl,
    storAt_succ_cases d o pr h⟩

/-- C3: for every inputs and every hour, the emitted grid_heating_kw is
either 0 or exactly 2, and the emitted pcm_use_kw lies in [0, 2] and
never exceeds the storage level at the start of that hour. -/
theorem record_heating_invariant (d o : ℚ) (pr : ℕ → ℚ) (h : ℕ) :
    ((recordAt d o pr h).grid_heating_kw = 0 ∨
      (recordAt d o pr h).grid_heating_kw = 2) ∧
    0 ≤ (recordAt d o pr h).pcm_use_kw ∧
    (recordAt d o pr h).pcm_use_kw ≤ 2 ∧
    (recordAt d o pr h).pcm_use_kw ≤ storAt d o pr h := by
  have hrg : (recordAt d o pr h).grid_heating_kw = (stepAt d o pr h).grid := rfl
  have hru : (recordAt d o pr h).pcm_use_kw = (stepAt d o pr h).use := rfl
  rw [hrg, hru]
  have hs0 := storAt_nonneg d o pr h
  unfold stepAt
  by_cases hd : tempAt d o pr h < d
  · by_cases hs : storAt d o pr h > 0
    · rw [hourStep_cold_pos o (pr h) hd hs]
      exact ⟨Or.inl rfl, le_min (by norm_num) (le_of_lt hs),
        min_le_left _ _, min_le_right _ _⟩
    · rw [hourStep_cold_empty o (pr h) hd hs]
      exact ⟨Or.inr rfl, le_refl 0, by norm_num, hs0⟩
  · rw [hourStep_warm o (pr h) _ hd]
    exact ⟨Or.inl rfl, le_refl 0, by norm_num, hs0⟩

/-- C9: in every hour of every run, at most one heating source is active:
the grid power and the storage power of the hour are never both nonzero,
so their product is always 0. -/
theorem heating_sources_exclusive (d o : ℚ) (pr : ℕ → ℚ) (h : ℕ) :
    (gridAt d o pr h = 0 ∨ useAt d o pr h = 0) ∧
    gridAt d o pr h * useAt d o pr h = 0 := by
  unfold gridAt useAt stepAt
  by_cases hd : tempAt d o pr h < d
  · by_cases hs : storAt d o pr h > 0
    · rw [hourStep_cold_pos o (pr h) hd hs]
      exact ⟨Or.inl rfl, zero_mul _⟩
    · rw [hourStep_cold_empty o (pr h) hd hs]
      exact ⟨Or.inr rfl, mul_zero _⟩
  · rw [hourStep_warm o (pr h) _ hd]
    exact ⟨Or.inl rfl, zero_mul _⟩

/-- C10: for every inputs, the internal (unrounded) temperature at the
start of every hour is at least the outdoor temperature: it starts at
outdoor_temp, the heat term is never negative, and the update contracts
the excess over outdoor_temp by a factor strictly between 0 and 1. -/
theorem temperature_ge_outdoor (d o : ℚ) (pr : ℕ → ℚ) (h : ℕ) :
    o ≤ tempAt d o pr h :=
  tempAt_ge_outdoor d o pr h

/-- C5: for every run, the returned summary metrics satisfy exactly
co2_saved_kg = round(sum of pcm_use_kw over the 24 records * 0.233, 2)
and trees_equivalent = round(co2_saved_kg / 21, 2). -/
theorem summary_metrics_formula (base : ℕ → ℚ) (d o : ℚ) :
    (simulate base d o).co2_saved_kg =
      roundDp 2 (((simulate base d o).records.map
        (fun r => r.pcm_use_kw)).sum * (233/1000)) ∧
    (simulate base d o).trees_equivalent =
      roundDp 2 ((simulate base d o).co2_saved_kg / 21) :=
  ⟨rfl, rfl⟩

/-- C7: two invocations of the engine with identical inputs produce
bit-identical price series and identical simulation results, whatever the
prior state of the process RNG: the engine reseeds with the fixed seed 0,
so it is a deterministic function of its two inputs. -/
theorem engine_deterministic (g : ℕ → ℕ → ℚ) (st1 st2 : ℕ) (d o : ℚ) :
    enginePrices g st1 = enginePrices g st2 ∧
    engineRun g st1 d o = engineRun g st2 d o :=
  ⟨rfl, rfl⟩

/-- C1: the simulation starts from temperature = outdoor_temp, storage = 5
and cost = 0, and each hourly step follows exactly the source transition:
with loss = 0.3 * 50 * (t - outdoor_temp) / 1000, if t < desired and
s > 0 then use = min(2, s) is drawn from storage at no cost and no grid
power; if t < desired and s = 0 then the grid supplies 2 kW and the cost
grows by 2 * price; if t >= desired nothing is heated and s is unchanged;
the next temperature is t + (heat - loss) * 0.5, and the emitted record
carries the pre-update temperature rounded to 2 decimals and the price
rounded to 3 decimals. -/
theorem sim_transition_spec (d o : ℚ) (pr : ℕ → ℚ) (h : ℕ) :
    simAux d o pr 0 = (o, 5, 0) ∧
    (tempAt d o pr h < d → 0 < storAt d o pr h →
      simAux d o pr (h + 1) =
        (tempAt d o pr h +
           (min 2 (storAt d o pr h) - 3/10 * 50 * (tempAt d o pr h - o) / 1000) * (1/2),
         storAt d o pr h - min 2 (storAt d o pr h),
         costAt d o pr h) ∧
      gridAt d o pr h = 0 ∧ useAt d o pr h = min 2 (storAt d o pr h) ∧
      heatAt d o pr h = min 2 (storAt d o pr h)) ∧
    (tempAt d o pr h < d → storAt d o pr h = 0 →
      simAux d o pr (h + 1) =
        (tempAt d o pr h + (2 - 3/10 * 50 * (tempAt d o pr h - o) / 1000) * (1/2),
         0,
         costAt d o pr h + 2 * pr h) ∧
      gridAt d o pr h = 2 ∧ useAt d o pr h = 0 ∧ heatAt d o pr h = 2) ∧
    (d ≤ tempAt d o pr h →
      simAux d o pr (h + 1) =
        (tempAt d o pr h + (0 - 3/10 * 50 * (tempAt d o pr h - o) / 1000) * (1/2),
         storAt d o pr h,
         costAt d o pr h) ∧
      gridAt d o pr h = 0 ∧ useAt d o pr h = 0 ∧ heatAt d o pr h = 0) ∧
    recordAt d o pr h =
      { hour := h, temperature := roundDp 2 (tempAt d o pr h),
        grid_heating_kw := gridAt d o pr h, pcm_use_kw := useAt d o pr h,
        price := roundDp 3 (pr h) } := by
  refine ⟨rfl, ?_, ?_, ?_, rfl⟩
  · intro hd hs
    have hst := hourStep_cold_pos o (pr h) hd hs
    have hse : stepAt d o pr h = hourStep d o (pr h) (tempAt d o pr h) (storAt d o pr h) := rfl
    rw [hse] at *
    refine ⟨?_, ?_, ?_, ?_⟩
    · rw [simAux_succ]; unfold stepAt; rw [hst]; norm_num
    · unfold gridAt stepAt; rw [hst]
    · unfold useAt stepAt; rw [hst]
    · unfold heatAt stepAt; rw [hst]
  · intro hd hs
    have hns : ¬ storAt d o pr h > 0 := by rw [hs]; norm_num
    have hst := hourStep_cold_empty o (pr h) hd hns
    refine ⟨?_, ?_, ?_, ?_⟩
    · rw [simAux_succ]; unfold stepAt; rw [hst, hs]
    · unfold gridAt stepAt; rw [hst]
    · unfold useAt stepAt; rw [hst]
    · unfold heatAt stepAt; rw [hst]
  · intro hd
    have hnd : ¬ tempAt d o pr h < d := not_lt.mpr hd
    have hst := hourStep_warm o (pr h) (storAt d o pr h) hnd
    refine ⟨?_, ?_, ?_, ?_⟩
    · rw [simAux_succ]; unfold stepAt; rw [hst]; norm_num
    · unfold gridAt stepAt; rw [hst]
    · unfold useAt stepAt; rw [hst]
    · unfold heatAt stepAt; rw [hst]

/-- Witness for C1: at desired 22, outdoor 5, constant price 1/5, hour 0
is in the cold-and-charged case and takes exactly the claimed transition. -/
theorem sim_transition_spec_witness :
    simAux 22 5 (fun _ => 1/5) (0 + 1) =
      (tempAt 22 5 (fun _ => 1/5) 0 +
         (min 2 (storAt 22 5 (fun _ => 1/5) 0) -
            3/10 * 50 * (tempAt 22 5 (fun _ => 1/5) 0 - 5) / 1000) * (1/2),
       storAt 22 5 (fun _ => 1/5) 0 - min 2 (storAt 22 5 (fun _ => 1/5) 0),
       costAt 22 5 (fun _ => 1/5) 0) ∧
    gridAt 22 5 (fun _ => 1/5) 0 = 0 ∧
    useAt 22 5 (fun _ => 1/5) 0 = min 2 (storAt 22 5 (fun _ => 1/5) 0) ∧
    heatAt 22 5 (fun _ => 1/5) 0 = min 2 (storAt 22 5 (fun _ => 1/5) 0) :=
  (sim_transition_spec 22 5 (fun _ => 1/5) 0).2.1 (by decide) (by decide)

/-- C4: for every inputs with nonnegative base prices, total_cost is
nonnegative; and whenever desired_temp is at most outdoor_temp, every
hour has heat = use = grid_heating = 0 and total_cost equals 0. -/
theorem total_cost_nonneg_and_zero (base : ℕ → ℚ) (d o : ℚ)
    (hb : ∀ h, 0 ≤ base h) :
    0 ≤ (simulate base d o).total_cost ∧
    (d ≤ o →
      (∀ h, heatAt d o (priceSeries base) h = 0 ∧
            useAt d o (priceSeries base) h = 0 ∧
            gridAt d o (priceSeries base) h = 0) ∧
      (simulate base d o).total_cost = 0) := by
  have hpr : ∀ h, 0 ≤ priceSeries base h := by
    intro h
    unfold priceSeries
    split_ifs
    · have := hb h; linarith
    · exact hb h
  have h1 : (simulate base d o).total_cost =
      roundDp 2 (costAt d o (priceSeries base) 24) := rfl
  constructor
  · rw [h1]
    exact roundDp_nonneg _ _ (costAt_nonneg d o _ hpr 24)
  · intro hdo
    have hsteady := simAux_steady d o (priceSeries base) hdo
    constructor
    · intro h
      have ht : tempAt d o (priceSeries base) h = o := by
        unfold tempAt; rw [hsteady h]
      have hnd : ¬ tempAt d o (priceSeries base) h < d := by
        rw [ht]; exact not_lt.mpr hdo
      have hst := hourStep_warm o (priceSeries base h)
        (storAt d o (priceSeries base) h) hnd
      refine ⟨?_, ?_, ?_⟩
      · unfold heatAt stepAt; rw [hst]
      · unfold useAt stepAt; rw [hst]
      · unfold gridAt stepAt; rw [hst]
    · have hc : costAt d o (priceSeries base) 24 = 0 := by
        unfold costAt; rw [hsteady 24]
      rw [h1, hc, roundDp_zero]

/-- Witness for C4: at base price 1/5, desired 5, outdoor 22 the cost is
nonnegative, hour 3 performs no heating at all, and the total cost is 0. -/
theorem total_cost_nonneg_and_zero_witness :
    0 ≤ (simulate (fun _ => 1/5) 5 22).total_cost ∧
    heatAt 5 22 (priceSeries (fun _ => 1/5)) 3 = 0 ∧
    useAt 5 22 (priceSeries (fun _ => 1/5)) 3 = 0 ∧
    gridAt 5 22 (priceSeries (fun _ => 1/5)) 3 = 0 ∧
    (simulate (fun _ => 1/5) 5 22).total_cost = 0 := by
  have H := total_cost_nonneg_and_zero (fun _ => 1/5) 5 22 (fun h => by norm_num)
  have H2 := H.2 (by norm_num)
  exact ⟨H.1, (H2.1 3).1, (H2.1 3).2.1, (H2.1 3).2.2, H2.2⟩

/-- C6: the generated price series has exactly 24 elements; the fixed
surcharge 0.15 is added exactly at hours 7, 8, 17, 18 and 19; and if each
base draw lies in [0.15, 0.25) then every price lies in [0.15, 0.40]. -/
theorem price_series_props (base : ℕ → ℚ)
    (hb : ∀ h, h < 24 → 3/20 ≤ base h ∧ base h < 1/4) :
    (priceList base).length = 24 ∧
    (∀ h, h < 24 →
      (h ∈ peakHours → priceSeries base h = base h + 3/20) ∧
      (h ∉ peakHours → priceSeries base h = base h)) ∧
    (∀ p ∈ priceList base, 3/20 ≤ p ∧ p ≤ 2/5) := by
  refine ⟨by simp [priceList], ?_, ?_⟩
  · intro h _
    constructor
    · intro hp; simp [priceSeries, hp]
    · intro hp; simp [priceSeries, hp]
  · intro p hp
    simp only [priceList, List.mem_map, List.mem_range] at hp
    obtain ⟨h, hh, rfl⟩ := hp
    obtain ⟨h1, h2⟩ := hb h hh
    unfold priceSeries
    split_ifs
    · constructor <;> linarith
    · constructor <;> linarith

/-- Witness for C6: the constant base draw 1/5 lies in [0.15, 0.25), and
the resulting series has 24 elements, the surcharge exactly at the peak
hours, and all prices within [0.15, 0.40]. -/
theorem price_series_props_witness :
    (priceList (fun _ => 1/5)).length = 24 ∧
    (∀ h, h < 24 →
      (h ∈ peakHours → priceSeries (fun _ => 1/5) h = 1/5 + 3/20) ∧
      (h ∉ peakHours → priceSeries (fun _ => 1/5) h = 1/5)) ∧
    (∀ p ∈ priceList (fun _ => 1/5), 3/20 ≤ p ∧ p ≤ 2/5) :=
  price_series_props (fun _ => 1/5) (fun h _ => by norm_num)

/-- Latch lemma: once storage is exactly 0 it stays 0 for the rest of the run. -/
lemma storAt_stays_zero (d o : ℚ) (pr : ℕ → ℚ) (h : ℕ)
    (hs : storAt d o pr h = 0) : ∀ k, h ≤ k → storAt d o pr k = 0 := by
  intro k hk
  induction k, hk using Nat.le_induction with
  | base => exact hs
  | succ n hn ih =>
    rcases storAt_succ_cases d o pr n with h1 | h1
    · rw [h1, ih]
    · rw [h1, ih, min_eq_right (by norm_num : (0:ℚ) ≤ 2)]
      norm_num

/-- C8: once the storage level reaches exactly 0 at some hour, it stays 0
for the remainder of the run, and every later hour whose start
temperature is below desired_temp emits grid_heating_kw = 2 and
pcm_use_kw = 0. -/
theorem storage_depletion_latch (d o : ℚ) (pr : ℕ → ℚ) (h k : ℕ)
    (hs : storAt d o pr h = 0) (hk : h ≤ k) :
    storAt d o pr k = 0 ∧
    (tempAt d o pr k < d → gridAt d o pr k = 2 ∧ useAt d o pr k = 0) := by
  have hz := storAt_stays_zero d o pr h hs k hk
  refine ⟨hz, ?_⟩
  intro hd
  have hns : ¬ storAt d o pr k > 0 := by rw [hz]; norm_num
  have hst := hourStep_cold_empty o (pr k) hd hns
  constructor
  · unfold gridAt stepAt; rw [hst]
  · unfold useAt stepAt; rw [hst]

/-- Witness for C8: with desired 100, outdoor 0 and constant price 1/5
the storage hits exactly 0 after hour 2; at hour 4 it is still 0 and the
cold room is served by the grid alone. -/
theorem storage_depletion_latch_witness :
    storAt 100 0 (fun _ => 1/5) 4 = 0 ∧
    (tempAt 100 0 (fun _ => 1/5) 4 < 100 →
      gridAt 100 0 (fun _ => 1/5) 4 = 2 ∧ useAt 100 0 (fun _ => 1/5) 4 = 0) :=
  storage_depletion_latch 100 0 (fun _ => 1/5) 3 4
    (by norm_num [storAt, simAux, hourStep, stepAt, min_def, power, pcm_cap,
      loss_coeff, room_vol, dt])
    (by norm_num)
